import Mathlib

/-!
Verification development for the nonlinear concrete section-analysis engine
(material model, section mesh, stress integrator, equilibrium solvers,
moment-curvature driver, moment-interaction generator).

The engine itself ships as a separate package; this file gives a shallow
embedding of its data model and operations, modelled from the written
specification, over exact rational arithmetic.
-/

/-- Modelled from the spec: the error taxonomy of the engine (the engine's
own error classes are not shipped here).  `MaterialLimitExceeded` (strain
outside a material's valid domain), `ConvergenceFailure` (root-finder
exceeded its iteration budget), `InfeasibleEquilibrium` (no neutral-axis
depth in bounds satisfies the force target), plus invalid-input rejection
for malformed control-point lists. -/
inductive SolveError
  | materialLimitExceeded
  | convergenceFailure
  | infeasibleEquilibrium
  | invalidInput
deriving DecidableEq, Repr

/-- Modelled from the spec: the polymorphic stress-strain law of the
Material Model (linear-elastic, linear-no-tension, elastic-perfectly-plastic
variants), each a pure function of strain. -/
inductive StressStrainLaw
  | linearElastic (E : ℚ)
  | linearNoTension (E : ℚ)
  | elasticPlastic (E epsY : ℚ)
deriving DecidableEq, Repr

/-- Modelled from the spec: stress returned by a stress-strain law at a
given strain (compression positive). -/
def StressStrainLaw.stressAt : StressStrainLaw → ℚ → ℚ
  | .linearElastic E, eps => E * eps
  | .linearNoTension E, eps => if 0 ≤ eps then E * eps else 0
  | .elasticPlastic E epsY, eps =>
      if epsY < eps then E * epsY
      else if eps < -epsY then -(E * epsY)
      else E * eps

/-- Modelled from the spec: a material, with identity, one stress-strain
law and an ultimate strain-magnitude limit beyond which it reports
`MaterialLimitExceeded`. -/
structure Material where
  name : String
  law : StressStrainLaw
  epsU : ℚ
deriving DecidableEq, Repr

/-- Modelled from the spec: a mesh element, with positive area, centroid
coordinates in section-local axes and an assigned material. -/
structure MeshElement where
  area : ℚ
  x : ℚ
  y : ℚ
  mat : Material
deriving DecidableEq, Repr

/-- Modelled from the spec: a discrete reinforcement/tendon point, with
area, centroid, material and an additive prestress force. -/
structure ReinforcementPoint where
  area : ℚ
  x : ℚ
  y : ℚ
  mat : Material
  prestress : ℚ
deriving DecidableEq, Repr

/-- Modelled from the spec: the section mesh built by the external
geometry collaborator: ordered elements, reinforcement points, the
extreme-fiber coordinate along the current bending direction, the overall
section depth, and the moment reference axis (section centroid). -/
structure Mesh where
  elements : List MeshElement
  reinf : List ReinforcementPoint
  uMax : ℚ
  depth : ℚ
  cx : ℚ
  cy : ℚ
deriving DecidableEq, Repr

/-- Modelled from the spec: the assumed planar strain distribution, either
parameterized by (neutral-axis depth from the extreme fiber, curvature,
bending-axis orientation resolved as direction components), or one of the
two degenerate zero-curvature uniform-strain limits. -/
inductive StrainPlane
  | plane (d_n kappa c s : ℚ)
  | uniform (eps : ℚ)
deriving DecidableEq, Repr

/-- Curvature of a strain plane (zero for the degenerate uniform planes). -/
def StrainPlane.curvature : StrainPlane → ℚ
  | .plane _ k _ _ => k
  | .uniform _ => 0

/-- Neutral-axis depth recorded in a strain plane (zero for uniform planes,
which have no neutral axis). -/
def StrainPlane.depthOf : StrainPlane → ℚ
  | .plane d _ _ _ => d
  | .uniform _ => 0

/-- Modelled from the spec: strain at a point is an affine function of its
perpendicular distance from the neutral-axis line; the rotated coordinate
resolves the bending orientation, and depth is measured from the extreme
fiber at coordinate `uMax`. -/
def strainAt (uMax : ℚ) : StrainPlane → ℚ → ℚ → ℚ
  | .uniform eps, _, _ => eps
  | .plane d k c s, x, y => k * (d - (uMax - (-x * s + y * c)))

/-- Componentwise sum of (N, Mx, My) triples. -/
def addT (a b : ℚ × ℚ × ℚ) : ℚ × ℚ × ℚ :=
  (a.1 + b.1, a.2.1 + b.2.1, a.2.2 + b.2.2)

/-- Modelled from the spec: per-element contribution of the Stress
Integrator — strain at the centroid, stress via the material law, force =
stress × area, moments = force × lever arm from the reference axis. -/
def elemContrib (mesh : Mesh) (p : StrainPlane) (e : MeshElement) : ℚ × ℚ × ℚ :=
  let f := e.mat.law.stressAt (strainAt mesh.uMax p e.x e.y) * e.area
  (f, f * (e.y - mesh.cy), f * (e.x - mesh.cx))

/-- Modelled from the spec: per-reinforcement-point contribution, as for
elements but with the discrete area and the additive prestress force. -/
def reinfContrib (mesh : Mesh) (p : StrainPlane) (r : ReinforcementPoint) : ℚ × ℚ × ℚ :=
  let f := r.mat.law.stressAt (strainAt mesh.uMax p r.x r.y) * r.area + r.prestress
  (f, f * (r.y - mesh.cy), f * (r.x - mesh.cx))

/-- Accumulate element contributions over a list of mesh elements. -/
def integrateElems (mesh : Mesh) (p : StrainPlane) : List MeshElement → ℚ × ℚ × ℚ
  | [] => (0, 0, 0)
  | e :: es => addT (elemContrib mesh p e) (integrateElems mesh p es)

/-- Accumulate reinforcement contributions over a list of points. -/
def integrateReinf (mesh : Mesh) (p : StrainPlane) : List ReinforcementPoint → ℚ × ℚ × ℚ
  | [] => (0, 0, 0)
  | r :: rs => addT (reinfContrib mesh p r) (integrateReinf mesh p rs)

/-- Modelled from the spec: the Stress Integrator,
`integrate(mesh, strain_plane) -> (N, Mx, My)` — a pure function summing
per-element and per-point contributions into resultant axial force and
bending moments about both axes. -/
def integrate (mesh : Mesh) (p : StrainPlane) : ℚ × ℚ × ℚ :=
  addT (integrateElems mesh p mesh.elements) (integrateReinf mesh p mesh.reinf)

/-- Modelled from the spec: a resolved strain plane together with the
resultant axial force and moments it produces — the fundamental unit
produced by the Equilibrium Solver. -/
structure EquilibriumState where
  plane : StrainPlane
  n : ℚ
  mx : ℚ
  my : ℚ
deriving DecidableEq, Repr

/-- Curvature of the state's strain plane. -/
def EquilibriumState.kappa (st : EquilibriumState) : ℚ :=
  st.plane.curvature

/-- Modelled from the spec: numerical configuration of the equilibrium
solvers — absolute force tolerance, depth-change tolerance, iteration cap,
geometric search margin, minimum neutral-axis depth for ultimate sweeps,
and the strain bracket for zero-curvature direct resolution. -/
structure SolverConfig where
  ftol : ℚ
  dtol : ℚ
  maxIter : Nat
  margin : ℚ
  dnMin : ℚ
  epsLo : ℚ
  epsHi : ℚ
deriving DecidableEq, Repr

/-- Modelled from the spec: the bracketed 1-D root-finder at the core of
the Equilibrium Solver.  Accepts the bracket midpoint when the residual is
within the force tolerance or the bracket width is within the depth
tolerance (whichever triggers first); narrows by keeping the sign-change
half; returns `ConvergenceFailure` when the iteration cap is exhausted.
On success it returns the accepted point together with the final bracket. -/
def bisect (f : ℚ → ℚ) (ftol dtol : ℚ) : Nat → ℚ → ℚ → Except SolveError (ℚ × ℚ × ℚ)
  | 0, _, _ => .error .convergenceFailure
  | fuel + 1, lo, hi =>
    let mid := (lo + hi) / 2
    if |f mid| ≤ ftol ∨ hi - lo ≤ dtol then .ok (mid, lo, hi)
    else if f lo * f mid ≤ 0 then bisect f ftol dtol fuel lo mid
    else bisect f ftol dtol fuel mid hi

/-- Modelled from the spec: `solve_for_neutral_axis(curvature, theta,
target_N)` — brackets a root of `N(d) - target_N` over bounds derived from
the section's geometric extent plus a margin, refines by bisection, and
signals `InfeasibleEquilibrium` when no sign change exists in the bracket.
The accepted state stores the integrator's output at the final plane. -/
def solve_for_neutral_axis (mesh : Mesh) (kappa c s targetN : ℚ)
    (cfg : SolverConfig) : Except SolveError EquilibriumState :=
  let lo := -cfg.margin
  let hi := mesh.depth + cfg.margin
  let f := fun d => (integrate mesh (.plane d kappa c s)).1 - targetN
  if 0 < f lo * f hi then .error .infeasibleEquilibrium
  else
    match bisect f cfg.ftol cfg.dtol cfg.maxIter lo hi with
    | .error e => .error e
    | .ok (d, _, _) =>
      .ok ⟨.plane d kappa c s, (integrate mesh (.plane d kappa c s)).1,
        (integrate mesh (.plane d kappa c s)).2.1,
        (integrate mesh (.plane d kappa c s)).2.2⟩

/-- Modelled from the spec: the zero-curvature edge case — no neutral axis
exists, so the uniform strain is resolved directly (a strain-space root
search over the material domain bracket, no depth search). -/
def solve_zero_curvature (mesh : Mesh) (targetN : ℚ)
    (cfg : SolverConfig) : Except SolveError EquilibriumState :=
  let f := fun eps => (integrate mesh (.uniform eps)).1 - targetN
  if 0 < f cfg.epsLo * f cfg.epsHi then .error .infeasibleEquilibrium
  else
    match bisect f cfg.ftol cfg.dtol cfg.maxIter cfg.epsLo cfg.epsHi with
    | .error e => .error e
    | .ok (eps, _, _) =>
      .ok ⟨.uniform eps, (integrate mesh (.uniform eps)).1,
        (integrate mesh (.uniform eps)).2.1,
        (integrate mesh (.uniform eps)).2.2⟩

/-- Modelled from the spec: the Equilibrium Solver entry point — dispatches
the degenerate zero-curvature case to direct resolution and otherwise
searches for the neutral-axis depth. -/
def solveEquilibrium (mesh : Mesh) (kappa c s targetN : ℚ)
    (cfg : SolverConfig) : Except SolveError EquilibriumState :=
  if kappa = 0 then solve_zero_curvature mesh targetN cfg
  else solve_for_neutral_axis mesh kappa c s targetN cfg

/-- Modelled from the spec: the tagged control-point kinds of the
Moment-Interaction Generator — ratio of neutral-axis depth to section
depth, absolute neutral-axis depth, yield-strain fraction of the extreme
tensile reinforcement, target axial force, and the zero-curvature state. -/
inductive CPKind
  | D
  | d_n
  | fy
  | N
  | kappa0
deriving DecidableEq, Repr

/-- Modelled from the spec: a control point is a tagged (kind, value)
pair parameterizing where on the interaction domain a state is evaluated. -/
structure ControlPoint where
  kind : CPKind
  value : ℚ
deriving DecidableEq, Repr

/-- Modelled from the spec: the ultimate-strain point at a given
neutral-axis depth — curvature is eliminated by fixing the extreme-fiber
strain at the governing ultimate strain `epsCu`, so `kappa = epsCu / d`. -/
def ultimatePoint (mesh : Mesh) (epsCu d : ℚ) : EquilibriumState :=
  let p := StrainPlane.plane d (epsCu / d) 1 0
  ⟨p, (integrate mesh p).1, (integrate mesh p).2.1, (integrate mesh p).2.2⟩

/-- Modelled from the spec: the zero-curvature maximal-compression state
(uniform strain at the governing ultimate strain). -/
def kappa0State (mesh : Mesh) (epsCu : ℚ) : EquilibriumState :=
  ⟨.uniform epsCu, (integrate mesh (.uniform epsCu)).1,
    (integrate mesh (.uniform epsCu)).2.1, (integrate mesh (.uniform epsCu)).2.2⟩

/-- Modelled from the spec: the Ultimate Capacity Solver for a target
axial load — a root search over neutral-axis depth at the ultimate strain
profile, over geometric depth bounds; with no sign change in the bracket
it signals `InfeasibleEquilibrium` rather than returning a clamped state.
Acceptance is by the force tolerance alone. -/
def solveUltimateForN (mesh : Mesh) (epsCu targetN : ℚ)
    (cfg : SolverConfig) : Except SolveError EquilibriumState :=
  let lo := cfg.dnMin
  let hi := mesh.depth + cfg.margin
  let f := fun d => (ultimatePoint mesh epsCu d).n - targetN
  if 0 < f lo * f hi then .error .infeasibleEquilibrium
  else
    match bisect f cfg.ftol 0 cfg.maxIter lo hi with
    | .error e => .error e
    | .ok (d, _, _) => .ok (ultimatePoint mesh epsCu d)

/-- Modelled from the spec: neutral-axis depth of the balanced/yield-ratio
control point — the depth at which the extreme tensile bar at depth `dBar`
reaches the fraction `v` of its yield strain while the extreme fiber is at
the ultimate strain. -/
def fyDepth (epsCu epsY dBar v : ℚ) : ℚ :=
  epsCu * dBar / (epsCu + v * epsY)

/-- Modelled from the spec: mapping a control point to its equilibrium
state — `kappa0` resolves directly to the zero-curvature compression state
(its companion value is unused), `D`/`d_n`/`fy` translate to a direct
depth evaluation, and `N` to a root search for the target axial load. -/
def cpState (mesh : Mesh) (epsCu epsY dBar : ℚ) (scfg : SolverConfig) :
    ControlPoint → Except SolveError EquilibriumState
  | ⟨.kappa0, _⟩ => .ok (kappa0State mesh epsCu)
  | ⟨.D, v⟩ => .ok (ultimatePoint mesh epsCu (v * mesh.depth))
  | ⟨.d_n, v⟩ => .ok (ultimatePoint mesh epsCu v)
  | ⟨.fy, v⟩ => .ok (ultimatePoint mesh epsCu (fyDepth epsCu epsY dBar v))
  | ⟨.N, v⟩ => solveUltimateForN mesh epsCu v scfg

/-- Modelled from the spec: neutral-axis depth a limit control point
stands for when spacing the sweep — the zero-curvature limit is given the
configured effectively-infinite proxy depth `k0d`. -/
def limitDepth (mesh : Mesh) (epsCu epsY dBar k0d : ℚ) (scfg : SolverConfig) :
    ControlPoint → Except SolveError ℚ
  | ⟨.kappa0, _⟩ => .ok k0d
  | ⟨.D, v⟩ => .ok (v * mesh.depth)
  | ⟨.d_n, v⟩ => .ok v
  | ⟨.fy, v⟩ => .ok (fyDepth epsCu epsY dBar v)
  | ⟨.N, v⟩ =>
    match solveUltimateForN mesh epsCu v scfg with
    | .ok st => .ok st.plane.depthOf
    | .error e => .error e

/-- Modelled from the spec: `kappa0` must appear first in any control-point
list it belongs to, since it represents maximal compression. -/
def kappa0First : List ControlPoint → Bool
  | [] => true
  | _ :: tl => tl.all (fun cp => cp.kind != CPKind.kappa0)

/-- Error-propagating map over a list (explicit, for equational reasoning
about the sweep). -/
def exMapM (f : α → Except SolveError β) : List α → Except SolveError (List β)
  | [] => .ok []
  | a :: as =>
    match f a with
    | .error e => .error e
    | .ok b =>
      match exMapM f as with
      | .error e => .error e
      | .ok bs => .ok (b :: bs)

/-- The `n - 2` interior values of `n` equally spaced values running from
`a` to `b` inclusive. -/
def interiorSpaced (a b : ℚ) (n : Nat) : List ℚ :=
  (List.range (n - 2)).map (fun (j : Nat) => a + ((j : ℚ) + 1) * (b - a) / ((n : ℚ) - 1))

/-- Modelled from the spec: interior points of the interaction sweep —
with `n_spacing` provided, that many equally spaced axial loads between
the limit states are solved (overriding `n_points`); otherwise `n_points`
equally spaced neutral-axis depths between the limit depths are evaluated
directly. -/
def miMid (mesh : Mesh) (epsCu epsY dBar k0d : ℚ) (scfg : SolverConfig)
    (np : Nat) (nsp : Option Nat) (l1 l2 : ControlPoint)
    (s1 s2 : EquilibriumState) : Except SolveError (List EquilibriumState) :=
  match nsp with
  | some m =>
    exMapM (fun q => solveUltimateForN mesh epsCu q scfg) (interiorSpaced s1.n s2.n m)
  | none =>
    match limitDepth mesh epsCu epsY dBar k0d scfg l1,
          limitDepth mesh epsCu epsY dBar k0d scfg l2 with
    | .ok d1, .ok d2 =>
      .ok ((interiorSpaced d1 d2 np).map (ultimatePoint mesh epsCu))
    | .error e, _ => .error e
    | .ok _, .error e => .error e

/-- Moments of the clipped point at the compression cap, linearly
interpolated between the last removed point and the first kept point. -/
def clipInterp (mc : ℚ) (sA sB : EquilibriumState) : ℚ × ℚ :=
  if sB.n = sA.n then (sA.mx, sA.my)
  else
    let t := (mc - sA.n) / (sB.n - sA.n)
    (sA.mx + t * (sB.mx - sA.mx), sA.my + t * (sB.my - sA.my))

/-- The single clipped point placed at the top of the envelope at axial
load exactly `mc`. -/
def clipPoint (mc : ℚ) (sA : EquilibriumState) :
    Option EquilibriumState → EquilibriumState
  | none => ⟨sA.plane, mc, sA.mx, sA.my⟩
  | some sB => ⟨sA.plane, mc, (clipInterp mc sA sB).1, (clipInterp mc sA sB).2⟩

/-- Modelled from the spec: the optional maximum-compression cutoff —
points whose axial load exceeds the cap are removed and replaced at the
top of the envelope by a single clipped point at the cap. -/
def applyMaxComp (mc : ℚ) (pts : List EquilibriumState) : List EquilibriumState :=
  match pts.filter (fun st => decide (mc < st.n)) with
  | [] => pts
  | o :: os =>
    clipPoint mc ((o :: os).getLast (List.cons_ne_nil o os))
      (pts.filter (fun st => decide (st.n ≤ mc))).head? ::
      pts.filter (fun st => decide (st.n ≤ mc))

/-- Apply the optional compression cap. -/
def applyMax : Option ℚ → List EquilibriumState → List EquilibriumState
  | none, pts => pts
  | some mc, pts => applyMaxComp mc pts

/-- Modelled from the spec: the Moment-Interaction Generator core, fully
applied.  Validates that the limits list has length exactly two and that
`kappa0` appears only first in the limit and control-point lists; then
evaluates the first limit, the interior sweep, the additional control
points and the second limit, in that order, and applies the optional
maximum-compression cutoff. -/
def miCore (mesh : Mesh) (lims cps : List ControlPoint) (np : Nat)
    (nsp : Option Nat) (mcomp : Option ℚ) (epsCu epsY dBar k0d : ℚ)
    (scfg : SolverConfig) : Except SolveError (List EquilibriumState) :=
  match lims with
  | [l1, l2] =>
    if kappa0First [l1, l2] && kappa0First cps then
      match cpState mesh epsCu epsY dBar scfg l1 with
      | .error e => .error e
      | .ok s1 =>
        match cpState mesh epsCu epsY dBar scfg l2 with
        | .error e => .error e
        | .ok s2 =>
          match miMid mesh epsCu epsY dBar k0d scfg np nsp l1 l2 s1 s2 with
          | .error e => .error e
          | .ok mid =>
            match exMapM (cpState mesh epsCu epsY dBar scfg) cps with
            | .error e => .error e
            | .ok cstates =>
              .ok (applyMax mcomp (s1 :: (mid ++ cstates ++ [s2])))
    else .error .invalidInput
  | _ => .error .invalidInput

/-- Modelled from the spec: the default sweep limits, from the concrete
decompression strain to zero-curvature tension. -/
def defaultLimits : List ControlPoint :=
  [⟨.D, 1⟩, ⟨.d_n, 1 / 1000000⟩]

/-- Modelled from the spec: the default additional control points — the
zero-curvature compression point, the balanced point and the pure-bending
point. -/
def defaultControlPoints : List ControlPoint :=
  [⟨.kappa0, 0⟩, ⟨.fy, 1⟩, ⟨.N, 0⟩]

/-- Modelled from the spec: the sweep configuration surface accepted by
the Moment-Interaction Generator. -/
structure MIConfig where
  limits : Option (List ControlPoint)
  control_points : List ControlPoint
  n_points : Nat
  n_spacing : Option Nat
  max_comp : Option ℚ
  epsCu : ℚ
  epsY : ℚ
  dBar : ℚ
  kappa0Depth : ℚ
  scfg : SolverConfig

/-- Modelled from the spec: the Moment-Interaction Generator entry point —
absent an explicit limits list it routes to the default limits. -/
def moment_interaction_diagram (mesh : Mesh) (cfg : MIConfig) :
    Except SolveError (List EquilibriumState) :=
  miCore mesh (cfg.limits.getD defaultLimits) cfg.control_points cfg.n_points
    cfg.n_spacing cfg.max_comp cfg.epsCu cfg.epsY cfg.dBar cfg.kappa0Depth cfg.scfg

/-- Modelled from the spec: whether any material in the mesh reports a
strain beyond its ultimate limit under the given plane — the
moment-curvature driver's termination signal. -/
def materialLimitHit (mesh : Mesh) (p : StrainPlane) : Bool :=
  mesh.elements.any (fun e => decide (e.mat.epsU < |strainAt mesh.uMax p e.x e.y|)) ||
  mesh.reinf.any (fun r => decide (r.mat.epsU < |strainAt mesh.uMax p r.x r.y|))

/-- Modelled from the spec: configuration of the Moment-Curvature Driver —
applied axial load, initial curvature increment, growth factor on
convergence, reduction factor on failure, curvature cap and step budget. -/
structure MCConfig where
  targetN : ℚ
  kappaInc : ℚ
  kappaMult : ℚ
  kappaRed : ℚ
  kappaMax : ℚ
  maxSteps : Nat
  scfg : SolverConfig
deriving DecidableEq, Repr

/-- Modelled from the spec: the Moment-Curvature Driver's stepping loop —
advance curvature by the step, solve for equilibrium at the applied axial
load, append the accepted state and grow the step, or shrink the step and
retry on failure; stop at the curvature cap, a material ultimate limit, or
the step budget.  The accumulator holds accepted states newest-first and
is reversed on exit. -/
def mcLoop (mesh : Mesh) (c s : ℚ) (cfg : MCConfig) :
    Nat → ℚ → ℚ → List EquilibriumState → List EquilibriumState
  | 0, _, _, acc => acc.reverse
  | fuel + 1, kappa, step, acc =>
    let kappaNext := kappa + step
    if cfg.kappaMax < kappaNext then acc.reverse
    else
      match solve_for_neutral_axis mesh kappaNext c s cfg.targetN cfg.scfg with
      | .ok st =>
        if materialLimitHit mesh st.plane then acc.reverse
        else mcLoop mesh c s cfg fuel kappaNext (step * cfg.kappaMult) (st :: acc)
      | .error _ => mcLoop mesh c s cfg fuel kappa (step * cfg.kappaRed) acc

/-- Modelled from the spec: the Moment-Curvature Driver — an ordered,
append-only sequence of equilibrium states produced by adaptive curvature
stepping from zero curvature. -/
def moment_curvature_analysis (mesh : Mesh) (c s : ℚ) (cfg : MCConfig) :
    List EquilibriumState :=
  mcLoop mesh c s cfg cfg.maxSteps 0 cfg.kappaInc []

instance {eps alp : Type} [DecidableEq eps] [DecidableEq alp] :
    DecidableEq (Except eps alp) := fun x y =>
  match x, y with
  | .error e, .error f =>
    match decEq e f with
    | isTrue h => isTrue (h ▸ rfl)
    | isFalse h => isFalse (fun hh => h (Except.error.inj hh))
  | .error _, .ok _ => isFalse (fun hh => Except.noConfusion hh)
  | .ok _, .error _ => isFalse (fun hh => Except.noConfusion hh)
  | .ok a, .ok b =>
    match decEq a b with
    | isTrue h => isTrue (h ▸ rfl)
    | isFalse h => isFalse (fun hh => h (Except.ok.inj hh))

/-- Total area of a list of mesh elements. -/
def areaSum : List MeshElement → ℚ
  | [] => 0
  | e :: es => e.area + areaSum es

/-- First moment of area about the x-axis (sum of area × y). -/
def momAY : List MeshElement → ℚ
  | [] => 0
  | e :: es => e.area * e.y + momAY es

/-- First moment of area about the y-axis (sum of area × x). -/
def momAX : List MeshElement → ℚ
  | [] => 0
  | e :: es => e.area * e.x + momAX es

/-- Concrete material for the witnesses: unit-modulus linear-elastic. -/
def matE1 : Material := ⟨"lin", .linearElastic 1, 100⟩

/-- Single unit-area element at the section centroid. -/
def mesh1 : Mesh := ⟨[⟨1, 0, 0, matE1⟩], [], 1, 1, 0, 0⟩

/-- Solver configuration exercised by the witnesses. -/
def cfg1 : SolverConfig := ⟨1, 0, 1, 1/2, 1/2, -2, 4⟩

/-- Linear-elastic material with modulus 10 for the 400 × 600 example. -/
def matE10 : Material := ⟨"lin10", .linearElastic 10, 100⟩

/-- The 400 × 600 homogeneous rectangle, meshed as four quadrant blocks
about its centroid. -/
def mesh400 : Mesh := ⟨[⟨60000, -100, 150, matE10⟩, ⟨60000, 100, 150, matE10⟩,
  ⟨60000, -100, -150, matE10⟩, ⟨60000, 100, -150, matE10⟩], [], 300, 600, 0, 0⟩

/-- Solver configuration for the 400 × 600 example (force tolerance 1e-6
relative to the target 2.4e6). -/
def cfg400 : SolverConfig := ⟨24/10, 0, 1, 1/2, 1/2, -2, 4⟩

/-- Moment-curvature configuration exercised by the witnesses. -/
def mcCfg1 : MCConfig := ⟨0, 1, 1, 1/2, 10, 3, cfg1⟩

/-- Interaction configuration with no explicit limits. -/
def miCfgNone : MIConfig := ⟨none, [], 2, none, none, 1, 1, 1, 5, cfg1⟩

/-- Interaction configuration with a malformed (empty) limits list. -/
def miCfgBad : MIConfig := ⟨some [], [], 2, none, none, 1, 1, 1, 5, cfg1⟩

/-- Control points related by kind, with equal values except for the
`kappa0` kind whose companion value is unused. -/
def cpRelB (a b : ControlPoint) : Bool :=
  a.kind == b.kind && (a.kind == CPKind.kappa0 || a.value == b.value)

/-- Pointwise `cpRelB` over control-point lists. -/
def cpListRelB : List ControlPoint → List ControlPoint → Bool
  | [], [] => true
  | a :: as, b :: bs => cpRelB a b && cpListRelB as bs
  | _, _ => false

/-- Result of the concrete load-spaced sweep (two points, no interior). -/
def c7res2 : List EquilibriumState :=
  ultimatePoint mesh1 1 (1/2) :: ([] ++ [] ++ [ultimatePoint mesh1 1 2])

/-- Result of the concrete depth-spaced sweep (three points). -/
def c7res3 : List EquilibriumState :=
  ultimatePoint mesh1 1 (1/2) ::
    ((interiorSpaced (1/2) 2 3).map (ultimatePoint mesh1 1) ++ [] ++
      [ultimatePoint mesh1 1 2])

/-- Two-point envelope used by the clipping witness. -/
def pts0 : List EquilibriumState :=
  [⟨.uniform 0, 2, 0, 0⟩, ⟨.uniform 0, -1, 0, 0⟩]

/-- Result of the concrete default-control-point sweep between the
zero-curvature compression limit and the near-tension depth limit. -/
def c5res : List EquilibriumState :=
  kappa0State mesh1 1 ::
    ([] ++ [kappa0State mesh1 1, ultimatePoint mesh1 1 (fyDepth 1 1 1 1),
      ultimatePoint mesh1 1 1] ++ [ultimatePoint mesh1 1 (1/1000000)])


/-- On success, `bisect` returns the midpoint of its final bracket, and
that point met the acceptance criterion. -/
theorem bisect_ok_mid (f : ℚ → ℚ) (ftol dtol : ℚ) (fuel : Nat) :
    ∀ lo hi d l h, bisect f ftol dtol fuel lo hi = .ok (d, l, h) →
      d = (l + h) / 2 ∧ (|f d| ≤ ftol ∨ h - l ≤ dtol) := by
  induction fuel with
  | zero => intro lo hi d l h heq; simp [bisect] at heq
  | succ n ih =>
    intro lo hi d l h heq
    rw [bisect] at heq
    split at heq
    · rename_i hcond
      simp only [Except.ok.injEq, Prod.mk.injEq] at heq
      obtain ⟨h1, h2, h3⟩ := heq
      subst h1; subst h2; subst h3
      exact ⟨rfl, hcond⟩
    · split at heq
      · exact ih lo ((lo + hi) / 2) d l h heq
      · exact ih ((lo + hi) / 2) hi d l h heq

/-- A `bisect` run started on a nonempty bracket keeps the bracket
nonempty. -/
theorem bisect_ok_bracket (f : ℚ → ℚ) (ftol dtol : ℚ) (fuel : Nat) :
    ∀ lo hi d l h, lo < hi → bisect f ftol dtol fuel lo hi = .ok (d, l, h) →
      l < h := by
  induction fuel with
  | zero => intro lo hi d l h _ heq; simp [bisect] at heq
  | succ n ih =>
    intro lo hi d l h hlt heq
    rw [bisect] at heq
    split at heq
    · simp only [Except.ok.injEq, Prod.mk.injEq] at heq
      obtain ⟨h1, h2, h3⟩ := heq
      subst h2; subst h3
      exact hlt
    · split at heq
      · exact ih lo ((lo + hi) / 2) d l h (by linarith) heq
      · exact ih ((lo + hi) / 2) hi d l h (by linarith) heq

/-- Evaluation of the concrete solver run shared by several witnesses. -/
theorem solve1_eval :
    solve_for_neutral_axis mesh1 1 1 0 0 cfg1 =
      .ok ⟨.plane (1/2) 1 1 0, -(1/2), 0, 0⟩ := by
  norm_num [solve_for_neutral_axis, bisect, integrate, integrateElems, integrateReinf,
    elemContrib, reinfContrib, addT, strainAt, StressStrainLaw.stressAt, mesh1, matE1,
    cfg1, abs_le]

/-- C1: every converged state returned by the Equilibrium Solver (any
curvature, orientation and target axial load) round-trips through the
Stress Integrator: re-integrating the state's strain plane reproduces the
stored (N, Mx, My) exactly — in particular within the solver's
force/moment tolerance. -/
theorem C1_stress_integrator_roundtrip :
    ∀ (mesh : Mesh) (kappa c s targetN : ℚ) (cfg : SolverConfig)
      (st : EquilibriumState),
      solveEquilibrium mesh kappa c s targetN cfg = .ok st →
      integrate mesh st.plane = (st.n, st.mx, st.my) := by
  intro mesh kappa c s targetN cfg st heq
  unfold solveEquilibrium at heq
  split at heq
  · simp only [solve_zero_curvature] at heq
    split at heq
    · simp at heq
    · split at heq
      · simp at heq
      · simp only [Except.ok.injEq] at heq
        subst heq
        rfl
  · simp only [solve_for_neutral_axis] at heq
    split at heq
    · simp at heq
    · split at heq
      · simp at heq
      · simp only [Except.ok.injEq] at heq
        subst heq
        rfl

/-- C1 witness: a concrete converged solve on the one-element mesh. -/
theorem C1_witness :
    integrate mesh1 (StrainPlane.plane (1/2) 1 1 0) = (-(1/2), 0, 0) :=
  C1_stress_integrator_roundtrip mesh1 1 1 0 0 cfg1
    ⟨.plane (1/2) 1 1 0, -(1/2), 0, 0⟩
    (by rw [solveEquilibrium, if_neg (by norm_num)]; exact solve1_eval)

/-- C2: when the target axial load exceeds what any neutral-axis depth
within the geometric bounds can balance (in particular, when it exceeds
the pure-compression capacity), the Ultimate Capacity Solver signals
`InfeasibleEquilibrium` and returns no clamped or extrapolated state. -/
theorem C2_infeasible_beyond_capacity :
    ∀ (mesh : Mesh) (epsCu targetN : ℚ) (cfg : SolverConfig),
      cfg.dnMin ≤ mesh.depth + cfg.margin →
      (∀ d, cfg.dnMin ≤ d → d ≤ mesh.depth + cfg.margin →
        (ultimatePoint mesh epsCu d).n < targetN) →
      solveUltimateForN mesh epsCu targetN cfg = .error .infeasibleEquilibrium := by
  intro mesh epsCu targetN cfg hle hall
  have h1 : (ultimatePoint mesh epsCu cfg.dnMin).n - targetN < 0 :=
    sub_neg.mpr (hall _ le_rfl hle)
  have h2 : (ultimatePoint mesh epsCu (mesh.depth + cfg.margin)).n - targetN < 0 :=
    sub_neg.mpr (hall _ hle le_rfl)
  unfold solveUltimateForN
  rw [if_pos (mul_pos_of_neg_of_neg h1 h2)]

/-- C2 witness: on the one-element mesh the achievable ultimate axial
force over the whole depth bracket stays below 2, so a target of 2 is
rejected as infeasible. -/
theorem C2_witness :
    solveUltimateForN mesh1 1 2 cfg1 = .error .infeasibleEquilibrium := by
  apply C2_infeasible_beyond_capacity mesh1 1 2 cfg1 (by norm_num [mesh1, cfg1])
  intro d h1 h2
  have hd : 0 < d := lt_of_lt_of_le (by norm_num [cfg1]) h1
  have hkey : (ultimatePoint mesh1 1 d).n = 1 / d * (d - 1) := by
    simp [ultimatePoint, integrate, integrateElems, integrateReinf, elemContrib,
      addT, strainAt, StressStrainLaw.stressAt, mesh1, matE1]
  rw [hkey]
  have hdiv : 0 < 1 / d := by positivity
  have : 1 / d * (d - 1) = 1 - 1 / d := by field_simp
  rw [this]
  linarith

/-- C3: `solve_for_neutral_axis` returns a state only when the
convergence criterion was met — the force residual is within the force
tolerance, or the final bracket width (the depth change) is within the
depth tolerance; and when the iteration budget runs out the root-finder
signals `ConvergenceFailure` instead of returning a state. -/
theorem C3_convergence_criterion :
    (∀ (mesh : Mesh) (kappa c s targetN : ℚ) (cfg : SolverConfig)
      (st : EquilibriumState),
      solve_for_neutral_axis mesh kappa c s targetN cfg = .ok st →
      |st.n - targetN| ≤ cfg.ftol ∨
        ∃ l h, h - l ≤ cfg.dtol ∧
          st.plane = StrainPlane.plane ((l + h) / 2) kappa c s)
    ∧ ∀ (f : ℚ → ℚ) (ftol dtol lo hi : ℚ),
        bisect f ftol dtol 0 lo hi = .error .convergenceFailure := by
  constructor
  · intro mesh kappa c s targetN cfg st heq
    simp only [solve_for_neutral_axis] at heq
    split at heq
    · simp at heq
    · split at heq
      · simp at heq
      · rename_i d l h hb
        simp only [Except.ok.injEq] at heq
        subst heq
        obtain ⟨hmid, hacc⟩ := bisect_ok_mid _ _ _ _ _ _ _ _ _ hb
        rcases hacc with hf | hw
        · exact Or.inl hf
        · exact Or.inr ⟨l, h, hw, by rw [hmid]⟩
  · intro f ftol dtol lo hi
    rfl

/-- C3 witness: the concrete solve accepted with its force residual
within the force tolerance. -/
theorem C3_witness :
    |(-(1/2) : ℚ) - 0| ≤ cfg1.ftol ∨
      ∃ l h, h - l ≤ cfg1.dtol ∧
        (StrainPlane.plane (1/2) 1 1 0 : StrainPlane) =
          StrainPlane.plane ((l + h) / 2) 1 1 0 :=
  C3_convergence_criterion.1 mesh1 1 1 0 0 cfg1
    ⟨.plane (1/2) 1 1 0, -(1/2), 0, 0⟩ solve1_eval

/-- Uniform-strain integration over all-linear-elastic elements produces
force and moments determined by total area and first moments of area. -/
theorem integrateElems_uniform_linear (mesh : Mesh) (E eps : ℚ) :
    ∀ es : List MeshElement, (∀ e ∈ es, e.mat.law = .linearElastic E) →
      integrateElems mesh (.uniform eps) es =
        (E * eps * areaSum es,
         E * eps * (momAY es - mesh.cy * areaSum es),
         E * eps * (momAX es - mesh.cx * areaSum es)) := by
  intro es
  induction es with
  | nil => intro _; simp [integrateElems, areaSum, momAY, momAX]
  | cons e es ih =>
    intro hall
    have he : e.mat.law = .linearElastic E := hall e (List.mem_cons_self e es)
    have ht := ih (fun x hx => hall x (List.mem_cons_of_mem e hx))
    simp only [integrateElems, ht, elemContrib, addT, strainAt, he,
      StressStrainLaw.stressAt, areaSum, momAY, momAX, Prod.mk.injEq]
    refine ⟨by ring, by ring, by ring⟩

/-- C9: integrating a zero-curvature (uniform-strain) plane over a mesh of
a single homogeneous linear-elastic material gives N = uniform stress ×
total area and zero moments about the section centroid; in particular the
400 × 600 rectangle at zero curvature with target N = area × 10 resolves
to a state with N = area × 10 exactly and Mx = My = 0. -/
theorem C9_uniform_strain_homogeneous :
    (∀ (mesh : Mesh) (E eps : ℚ),
      (∀ e ∈ mesh.elements, e.mat.law = .linearElastic E) →
      mesh.reinf = [] →
      momAY mesh.elements = mesh.cy * areaSum mesh.elements →
      momAX mesh.elements = mesh.cx * areaSum mesh.elements →
      integrate mesh (.uniform eps) = (E * eps * areaSum mesh.elements, 0, 0))
    ∧ solve_zero_curvature mesh400 2400000 cfg400 =
        .ok ⟨.uniform 1, 2400000, 0, 0⟩
    ∧ (2400000 : ℚ) = areaSum mesh400.elements * 10 := by
  refine ⟨?_, ?_, ?_⟩
  · intro mesh E eps hall hre hcy hcx
    rw [integrate, hre, integrateElems_uniform_linear mesh E eps mesh.elements hall]
    simp only [integrateReinf, addT, hcy, hcx]
    refine Prod.ext (by ring) (Prod.ext (by ring) (by ring))
  · norm_num [solve_zero_curvature, bisect, integrate, integrateElems, integrateReinf,
      elemContrib, addT, strainAt, StressStrainLaw.stressAt, mesh400, matE10,
      cfg400, abs_le]
  · norm_num [areaSum, mesh400]

/-- C9 witness: the uniform-strain law applied to the 400 × 600 mesh at
unit strain. -/
theorem C9_witness :
    integrate mesh400 (.uniform 1) = (10 * 1 * areaSum mesh400.elements, 0, 0) :=
  C9_uniform_strain_homogeneous.1 mesh400 10 1
    (by decide) rfl
    (by norm_num [momAY, areaSum, mesh400])
    (by norm_num [momAX, areaSum, mesh400])

/-- A state accepted by the neutral-axis solver carries a strain plane at
the requested curvature and orientation. -/
theorem solve_plane_shape (mesh : Mesh) (kappa c s targetN : ℚ)
    (cfg : SolverConfig) (st : EquilibriumState)
    (heq : solve_for_neutral_axis mesh kappa c s targetN cfg = .ok st) :
    ∃ d, st.plane = StrainPlane.plane d kappa c s := by
  simp only [solve_for_neutral_axis] at heq
  split at heq
  · simp at heq
  · split at heq
    · simp at heq
    · rename_i d l h hb
      simp only [Except.ok.injEq] at heq
      subst heq
      exact ⟨d, rfl⟩

/-- A state accepted by the neutral-axis solver records the requested
curvature. -/
theorem solve_kappa (mesh : Mesh) (kappa c s targetN : ℚ)
    (cfg : SolverConfig) (st : EquilibriumState)
    (heq : solve_for_neutral_axis mesh kappa c s targetN cfg = .ok st) :
    st.kappa = kappa := by
  obtain ⟨d, hp⟩ := solve_plane_shape mesh kappa c s targetN cfg st heq
  simp [EquilibriumState.kappa, hp, StrainPlane.curvature]

/-- The driver loop keeps curvatures strictly decreasing along its
newest-first accumulator, hence strictly increasing in its output. -/
theorem mcLoop_pairwise (mesh : Mesh) (c s : ℚ) (cfg : MCConfig)
    (hmult : 0 < cfg.kappaMult) (hred : 0 < cfg.kappaRed) :
    ∀ (fuel : Nat) (kappa step : ℚ) (acc : List EquilibriumState),
      0 < step →
      (∀ st ∈ acc, st.kappa ≤ kappa) →
      List.Pairwise (fun a b => b.kappa < a.kappa) acc →
      List.Pairwise (fun a b => a.kappa < b.kappa)
        (mcLoop mesh c s cfg fuel kappa step acc) := by
  intro fuel
  induction fuel with
  | zero =>
    intro kappa step acc _ _ hpw
    simpa [mcLoop] using List.pairwise_reverse.mpr hpw
  | succ n ih =>
    intro kappa step acc hstep hbound hpw
    rw [mcLoop]
    split
    · exact List.pairwise_reverse.mpr hpw
    · split
      · rename_i st hsolve
        split
        · exact List.pairwise_reverse.mpr hpw
        · apply ih
          · exact mul_pos hstep hmult
          · intro x hx
            rcases List.mem_cons.mp hx with rfl | hx'
            · rw [solve_kappa mesh _ c s cfg.targetN cfg.scfg x hsolve]
            · exact le_of_lt (lt_of_le_of_lt (hbound x hx') (by linarith))
          · refine List.Pairwise.cons ?_ hpw
            intro b hb
            rw [solve_kappa mesh _ c s cfg.targetN cfg.scfg st hsolve]
            exact lt_of_le_of_lt (hbound b hb) (by linarith)
      · exact ih kappa (step * cfg.kappaRed) acc (mul_pos hstep hred) hbound hpw

/-- The driver loop only ever appends: the states already accumulated are
a prefix of whatever it returns. -/
theorem mcLoop_append (mesh : Mesh) (c s : ℚ) (cfg : MCConfig) :
    ∀ (fuel : Nat) (kappa step : ℚ) (acc : List EquilibriumState),
      ∃ t, mcLoop mesh c s cfg fuel kappa step acc = acc.reverse ++ t := by
  intro fuel
  induction fuel with
  | zero => intro kappa step acc; exact ⟨[], by simp [mcLoop]⟩
  | succ n ih =>
    intro kappa step acc
    rw [mcLoop]
    split
    · exact ⟨[], by simp⟩
    · split
      · rename_i st hsolve
        split
        · exact ⟨[], by simp⟩
        · obtain ⟨t, ht⟩ := ih (kappa + step) (step * cfg.kappaMult) (st :: acc)
          exact ⟨st :: t, by rw [ht]; simp⟩
      · exact ih kappa (step * cfg.kappaRed) acc

/-- C4: a moment-curvature analysis returns states strictly monotonically
increasing in curvature — every pair of states is ordered and no two share
a curvature — and the driver loop is append-only: states already produced
are never retroactively modified, they remain a prefix of the output. -/
theorem C4_moment_curvature_monotone :
    (∀ (mesh : Mesh) (c s : ℚ) (cfg : MCConfig),
      0 < cfg.kappaInc → 0 < cfg.kappaMult → 0 < cfg.kappaRed →
      List.Pairwise (fun a b => a.kappa < b.kappa)
        (moment_curvature_analysis mesh c s cfg)
      ∧ ((moment_curvature_analysis mesh c s cfg).map EquilibriumState.kappa).Nodup)
    ∧ ∀ (mesh : Mesh) (c s : ℚ) (cfg : MCConfig) (fuel : Nat) (kappa step : ℚ)
        (acc : List EquilibriumState),
        ∃ t, mcLoop mesh c s cfg fuel kappa step acc = acc.reverse ++ t := by
  constructor
  · intro mesh c s cfg hinc hmult hred
    have hpw : List.Pairwise (fun a b => a.kappa < b.kappa)
        (moment_curvature_analysis mesh c s cfg) := by
      rw [moment_curvature_analysis]
      exact mcLoop_pairwise mesh c s cfg hmult hred cfg.maxSteps 0 cfg.kappaInc []
        hinc (by simp) (by simp)
    refine ⟨hpw, ?_⟩
    have hne : List.Pairwise (fun a b : EquilibriumState => a.kappa ≠ b.kappa)
        (moment_curvature_analysis mesh c s cfg) :=
      hpw.imp (fun h => ne_of_lt h)
    simpa [List.Nodup, List.pairwise_map] using hne
  · exact fun mesh c s cfg => mcLoop_append mesh c s cfg

/-- C4 witness: a concrete moment-curvature run with positive stepping
parameters. -/
theorem C4_witness :
    List.Pairwise (fun a b => a.kappa < b.kappa)
      (moment_curvature_analysis mesh1 1 0 mcCfg1)
    ∧ ((moment_curvature_analysis mesh1 1 0 mcCfg1).map EquilibriumState.kappa).Nodup :=
  C4_moment_curvature_monotone.1 mesh1 1 0 mcCfg1
    (by norm_num [mcCfg1]) (by norm_num [mcCfg1]) (by norm_num [mcCfg1])

/-- C10: with no explicit limits the sweep runs between the default
limits, which are exactly the concrete decompression point (D, 1.0) and
the zero-curvature tension point (d_n, 1e-6); and an explicitly supplied
limits list of length other than two is rejected. -/
theorem C10_limit_defaults_and_validation :
    (∀ (mesh : Mesh) (cfg : MIConfig), cfg.limits = none →
      moment_interaction_diagram mesh cfg =
        miCore mesh defaultLimits cfg.control_points cfg.n_points cfg.n_spacing
          cfg.max_comp cfg.epsCu cfg.epsY cfg.dBar cfg.kappa0Depth cfg.scfg)
    ∧ defaultLimits = [⟨.D, 1⟩, ⟨.d_n, 1/1000000⟩]
    ∧ ∀ (mesh : Mesh) (cfg : MIConfig) (L : List ControlPoint),
        cfg.limits = some L → L.length ≠ 2 →
        moment_interaction_diagram mesh cfg = .error .invalidInput := by
  refine ⟨?_, rfl, ?_⟩
  · intro mesh cfg h
    unfold moment_interaction_diagram
    rw [h]
    rfl
  · intro mesh cfg L hL hlen
    unfold moment_interaction_diagram
    rw [hL]
    rcases L with _ | ⟨a, L⟩
    · rfl
    · rcases L with _ | ⟨b, L⟩
      · rfl
      · rcases L with _ | ⟨c, L⟩
        · exact absurd rfl hlen
        · rfl

/-- C10 witness: the default-limit routing and the length validation on
concrete configurations. -/
theorem C10_witness :
    moment_interaction_diagram mesh1 miCfgNone =
      miCore mesh1 defaultLimits [] 2 none none 1 1 1 5 cfg1
    ∧ moment_interaction_diagram mesh1 miCfgBad = .error .invalidInput :=
  ⟨C10_limit_defaults_and_validation.1 mesh1 miCfgNone rfl,
   C10_limit_defaults_and_validation.2.2 mesh1 miCfgBad [] rfl (by norm_num)⟩

/-- Two `cpRelB`-related control points share a kind, and share a value
unless the kind is `kappa0`. -/
theorem cpRelB_spec (a b : ControlPoint) (h : cpRelB a b = true) :
    a.kind = b.kind ∧ (a.kind = CPKind.kappa0 ∨ a.value = b.value) := by
  simpa [cpRelB, Bool.and_eq_true, Bool.or_eq_true] using h

/-- `cpState` never reads the companion value of a `kappa0` control
point, so it agrees on `cpRelB`-related points. -/
theorem cpState_congr (mesh : Mesh) (epsCu epsY dBar : ℚ) (scfg : SolverConfig)
    (a b : ControlPoint) (h : cpRelB a b = true) :
    cpState mesh epsCu epsY dBar scfg a = cpState mesh epsCu epsY dBar scfg b := by
  obtain ⟨hk, hv⟩ := cpRelB_spec a b h
  obtain ⟨ka, va⟩ := a
  obtain ⟨kb, vb⟩ := b
  simp only at hk hv
  subst hk
  cases ka with
  | kappa0 => rfl
  | D =>
    rcases hv with h0 | h0
    · exact absurd h0 (by simp)
    · subst h0
      rfl
  | d_n =>
    rcases hv with h0 | h0
    · exact absurd h0 (by simp)
    · subst h0
      rfl
  | fy =>
    rcases hv with h0 | h0
    · exact absurd h0 (by simp)
    · subst h0
      rfl
  | N =>
    rcases hv with h0 | h0
    · exact absurd h0 (by simp)
    · subst h0
      rfl

/-- `limitDepth` never reads the companion value of a `kappa0` control
point either. -/
theorem limitDepth_congr (mesh : Mesh) (epsCu epsY dBar k0d : ℚ)
    (scfg : SolverConfig) (a b : ControlPoint) (h : cpRelB a b = true) :
    limitDepth mesh epsCu epsY dBar k0d scfg a =
      limitDepth mesh epsCu epsY dBar k0d scfg b := by
  obtain ⟨hk, hv⟩ := cpRelB_spec a b h
  obtain ⟨ka, va⟩ := a
  obtain ⟨kb, vb⟩ := b
  simp only at hk hv
  subst hk
  cases ka with
  | kappa0 => rfl
  | D =>
    rcases hv with h0 | h0
    · exact absurd h0 (by simp)
    · subst h0
      rfl
  | d_n =>
    rcases hv with h0 | h0
    · exact absurd h0 (by simp)
    · subst h0
      rfl
  | fy =>
    rcases hv with h0 | h0
    · exact absurd h0 (by simp)
    · subst h0
      rfl
  | N =>
    rcases hv with h0 | h0
    · exact absurd h0 (by simp)
    · subst h0
      rfl

/-- Related control-point lists agree on the tail kind scan. -/
theorem cpListRelB_all_kind :
    ∀ l l', cpListRelB l l' = true →
      l.all (fun cp => cp.kind != CPKind.kappa0) =
        l'.all (fun cp => cp.kind != CPKind.kappa0)
  | [], [], _ => rfl
  | a :: as, b :: bs, h => by
    have h' : cpRelB a b = true ∧ cpListRelB as bs = true := by
      simpa [cpListRelB, Bool.and_eq_true] using h
    obtain ⟨hk, _⟩ := cpRelB_spec a b h'.1
    simp only [List.all_cons, hk, cpListRelB_all_kind as bs h'.2]

/-- Related control-point lists agree on the `kappa0`-first validation. -/
theorem kappa0First_congr :
    ∀ l l', cpListRelB l l' = true → kappa0First l = kappa0First l'
  | [], [], _ => rfl
  | a :: as, b :: bs, h => by
    have h' : cpRelB a b = true ∧ cpListRelB as bs = true := by
      simpa [cpListRelB, Bool.and_eq_true] using h
    simp only [kappa0First, cpListRelB_all_kind as bs h'.2]

/-- Mapping `cpState` over related control-point lists gives identical
results. -/
theorem exMapM_cpState_congr (mesh : Mesh) (epsCu epsY dBar : ℚ)
    (scfg : SolverConfig) :
    ∀ l l', cpListRelB l l' = true →
      exMapM (cpState mesh epsCu epsY dBar scfg) l =
        exMapM (cpState mesh epsCu epsY dBar scfg) l'
  | [], [], _ => rfl
  | a :: as, b :: bs, h => by
    have h' : cpRelB a b = true ∧ cpListRelB as bs = true := by
      simpa [cpListRelB, Bool.and_eq_true] using h
    simp only [exMapM, cpState_congr mesh epsCu epsY dBar scfg a b h'.1,
      exMapM_cpState_congr mesh epsCu epsY dBar scfg as bs h'.2]

/-- The interior sweep agrees on related limit control points. -/
theorem miMid_congr (mesh : Mesh) (epsCu epsY dBar k0d : ℚ)
    (scfg : SolverConfig) (np : Nat) (nsp : Option Nat)
    (l1 l2 l1' l2' : ControlPoint) (h1 : cpRelB l1 l1' = true)
    (h2 : cpRelB l2 l2' = true) :
    ∀ s1 s2, miMid mesh epsCu epsY dBar k0d scfg np nsp l1 l2 s1 s2 =
      miMid mesh epsCu epsY dBar k0d scfg np nsp l1' l2' s1 s2 := by
  intro s1 s2
  cases nsp with
  | some m => rfl
  | none =>
    simp only [miMid, limitDepth_congr mesh epsCu epsY dBar k0d scfg l1 l1' h1,
      limitDepth_congr mesh epsCu epsY dBar k0d scfg l2 l2' h2]

/-- C6: a control-point list with a `kappa0` entry anywhere but first is
rejected by the generator; and the `kappa0` companion value is unused —
two invocations whose control points differ only in `kappa0` companion
values produce identical results. -/
theorem C6_kappa0_first_value_unused :
    (∀ (mesh : Mesh) (lims cps : List ControlPoint) (np : Nat)
      (nsp : Option Nat) (mcomp : Option ℚ) (epsCu epsY dBar k0d : ℚ)
      (scfg : SolverConfig) (cp : ControlPoint),
      cp ∈ cps.tail → cp.kind = CPKind.kappa0 →
      miCore mesh lims cps np nsp mcomp epsCu epsY dBar k0d scfg =
        .error .invalidInput)
    ∧ ∀ (mesh : Mesh) (L L' C C' : List ControlPoint) (np : Nat)
        (nsp : Option Nat) (mcomp : Option ℚ) (epsCu epsY dBar k0d : ℚ)
        (scfg : SolverConfig),
        cpListRelB L L' = true → cpListRelB C C' = true →
        miCore mesh L C np nsp mcomp epsCu epsY dBar k0d scfg =
          miCore mesh L' C' np nsp mcomp epsCu epsY dBar k0d scfg := by
  constructor
  · intro mesh lims cps np nsp mcomp epsCu epsY dBar k0d scfg cp hmem hkind
    have hb : kappa0First cps = false := by
      rcases cps with _ | ⟨hd, tl⟩
      · simp at hmem
      · simp only [List.tail_cons] at hmem
        apply Bool.eq_false_iff.mpr
        intro hall
        rw [kappa0First, List.all_eq_true] at hall
        have := hall cp hmem
        simp [hkind] at this
    rcases lims with _ | ⟨l1, lims⟩
    · rfl
    · rcases lims with _ | ⟨l2, lims⟩
      · rfl
      · rcases lims with _ | ⟨l3, lims⟩
        · simp only [miCore, hb, Bool.and_false, Bool.false_eq_true, if_false]
        · rfl
  · intro mesh L L' C C' np nsp mcomp epsCu epsY dBar k0d scfg hL hC
    rcases L with _ | ⟨a, L⟩ <;> rcases L' with _ | ⟨a', L'⟩
    · rfl
    · simp [cpListRelB] at hL
    · simp [cpListRelB] at hL
    rcases L with _ | ⟨b, L⟩ <;> rcases L' with _ | ⟨b', L'⟩
    · rfl
    · simp [cpListRelB, cpRelB] at hL
    · simp [cpListRelB] at hL
    rcases L with _ | ⟨c, L⟩ <;> rcases L' with _ | ⟨c', L'⟩
    · have h' : cpRelB a a' = true ∧ cpRelB b b' = true := by
        simpa [cpListRelB, Bool.and_eq_true] using hL
      simp only [miCore, kappa0First_congr [a, b] [a', b'] hL, kappa0First_congr C C' hC,
        cpState_congr mesh epsCu epsY dBar scfg a a' h'.1,
        cpState_congr mesh epsCu epsY dBar scfg b b' h'.2,
        miMid_congr mesh epsCu epsY dBar k0d scfg np nsp a b a' b' h'.1 h'.2,
        exMapM_cpState_congr mesh epsCu epsY dBar scfg C C' hC]
    · simp [cpListRelB, cpRelB] at hL
    · simp [cpListRelB] at hL
    · rfl

/-- C6 witness: rejection of a tail `kappa0`, and value-irrelevance on
concrete lists differing only in `kappa0` companion values. -/
theorem C6_witness :
    miCore mesh1 defaultLimits [⟨.fy, 1⟩, ⟨.kappa0, 0⟩] 2 none none 1 1 1 5 cfg1 =
      .error .invalidInput
    ∧ miCore mesh1 [⟨.kappa0, 0⟩, ⟨.d_n, 1⟩] defaultControlPoints 2 none none 1 1 1 5 cfg1 =
        miCore mesh1 [⟨.kappa0, 42⟩, ⟨.d_n, 1⟩] [⟨.kappa0, 7⟩, ⟨.fy, 1⟩, ⟨.N, 0⟩]
          2 none none 1 1 1 5 cfg1 :=
  ⟨C6_kappa0_first_value_unused.1 mesh1 defaultLimits [⟨.fy, 1⟩, ⟨.kappa0, 0⟩]
      2 none none 1 1 1 5 cfg1 ⟨.kappa0, 0⟩ (by simp) rfl,
   C6_kappa0_first_value_unused.2 mesh1 [⟨.kappa0, 0⟩, ⟨.d_n, 1⟩]
      [⟨.kappa0, 42⟩, ⟨.d_n, 1⟩] defaultControlPoints [⟨.kappa0, 7⟩, ⟨.fy, 1⟩, ⟨.N, 0⟩]
      2 none none 1 1 1 5 cfg1 (by decide) (by decide)⟩

/-- A successful error-propagating map preserves length. -/
theorem exMapM_ok_length (f : α → Except SolveError β) :
    ∀ (l : List α) (bs : List β), exMapM f l = .ok bs → bs.length = l.length
  | [], bs, h => by
    simp only [exMapM, Except.ok.injEq] at h
    subst h
    rfl
  | a :: as, bs, h => by
    simp only [exMapM] at h
    split at h
    · simp at h
    · rename_i b hb
      split at h
      · simp at h
      · rename_i bs' hbs
        simp only [Except.ok.injEq] at h
        subst h
        simp [exMapM_ok_length f as bs' hbs]

/-- A successful error-propagating map sends the j-th input to the j-th
output. -/
theorem exMapM_ok_get (f : α → Except SolveError β) :
    ∀ (l : List α) (bs : List β), exMapM f l = .ok bs →
      ∀ (j : Nat) (a : α), l[j]? = some a →
        ∃ b, bs[j]? = some b ∧ f a = .ok b
  | [], bs, h => by intro j a ha; simp at ha
  | x :: as, bs, h => by
    intro j a ha
    simp only [exMapM] at h
    split at h
    · simp at h
    · rename_i b hb
      split at h
      · simp at h
      · rename_i bs' hbs
        simp only [Except.ok.injEq] at h
        subst h
        cases j with
        | zero =>
          simp only [List.getElem?_cons_zero, Option.some.injEq] at ha
          subst ha
          exact ⟨b, by simp, hb⟩
        | succ n =>
          simp only [List.getElem?_cons_succ] at ha
          obtain ⟨b', hb', hf⟩ := exMapM_ok_get f as bs' hbs n a ha
          exact ⟨b', by simpa using hb', hf⟩

/-- Every output of a successful error-propagating map comes from some
input. -/
theorem exMapM_ok_mem (f : α → Except SolveError β) :
    ∀ (l : List α) (bs : List β), exMapM f l = .ok bs →
      ∀ a ∈ l, ∃ b ∈ bs, f a = .ok b
  | [], bs, h => by intro a ha; simp at ha
  | x :: as, bs, h => by
    intro a ha
    simp only [exMapM] at h
    split at h
    · simp at h
    · rename_i b hb
      split at h
      · simp at h
      · rename_i bs' hbs
        simp only [Except.ok.injEq] at h
        subst h
        rcases List.mem_cons.mp ha with rfl | ha'
        · exact ⟨b, List.mem_cons_self b bs', hb⟩
        · obtain ⟨b', hmem, hf⟩ := exMapM_ok_mem f as bs' hbs a ha'
          exact ⟨b', List.mem_cons_of_mem b hmem, hf⟩

/-- A state accepted by the ultimate solver has its axial force within
the force tolerance of the target (its acceptance is by force tolerance
alone). -/
theorem solveUltimateForN_tol (mesh : Mesh) (epsCu t : ℚ) (cfg : SolverConfig)
    (st : EquilibriumState) (hbr : cfg.dnMin < mesh.depth + cfg.margin)
    (heq : solveUltimateForN mesh epsCu t cfg = .ok st) :
    |st.n - t| ≤ cfg.ftol := by
  simp only [solveUltimateForN] at heq
  split at heq
  · simp at heq
  · split at heq
    · simp at heq
    · rename_i d l h hb
      simp only [Except.ok.injEq] at heq
      subst heq
      obtain ⟨hmid, hacc⟩ := bisect_ok_mid _ _ _ _ _ _ _ _ _ hb
      rcases hacc with hf | hw
      · exact hf
      · have := bisect_ok_bracket _ _ _ _ _ _ _ _ _ hbr hb
        linarith

/-- The interior spacing list has `n - 2` entries. -/
theorem interiorSpaced_length (a b : ℚ) (n : Nat) :
    (interiorSpaced a b n).length = n - 2 := by
  simp only [interiorSpaced, List.length_map, List.length_range]

/-- The j-th interior spacing value. -/
theorem interiorSpaced_get (a b : ℚ) (n j : Nat) (hj : j < n - 2) :
    (interiorSpaced a b n)[j]? =
      some (a + ((j : ℚ) + 1) * (b - a) / ((n : ℚ) - 1)) := by
  rw [interiorSpaced, List.getElem?_map, List.getElem?_range]
  · rfl
  · exact hj

/-- Decomposition of a successful interaction sweep into its limit
states, interior states and control-point states. -/
theorem miCore_ok_elim (mesh : Mesh) (l1 l2 : ControlPoint)
    (cps : List ControlPoint) (np : Nat) (nsp : Option Nat) (mcomp : Option ℚ)
    (epsCu epsY dBar k0d : ℚ) (scfg : SolverConfig)
    (res : List EquilibriumState)
    (heq : miCore mesh [l1, l2] cps np nsp mcomp epsCu epsY dBar k0d scfg = .ok res) :
    ∃ s1 s2 mid cstates,
      cpState mesh epsCu epsY dBar scfg l1 = .ok s1 ∧
      cpState mesh epsCu epsY dBar scfg l2 = .ok s2 ∧
      miMid mesh epsCu epsY dBar k0d scfg np nsp l1 l2 s1 s2 = .ok mid ∧
      exMapM (cpState mesh epsCu epsY dBar scfg) cps = .ok cstates ∧
      res = applyMax mcomp (s1 :: (mid ++ cstates ++ [s2])) := by
  simp only [miCore] at heq
  split at heq
  · split at heq
    · simp at heq
    · rename_i s1 hs1
      split at heq
      · simp at heq
      · rename_i s2 hs2
        split at heq
        · simp at heq
        · rename_i mid hmid
          split at heq
          · simp at heq
          · rename_i cstates hcs
            simp only [Except.ok.injEq] at heq
            exact ⟨s1, s2, mid, cstates, hs1, hs2, hmid, hcs, heq.symm⟩
  · simp at heq

/-- C7: exactly one spacing mode governs a sweep.  With `n_spacing`
present, `n_points` is overridden (the result is independent of it) and
the sweep solves `n_spacing` equally spaced axial loads between the limit
states, each solved point landing within the force tolerance of its
target load; with `n_spacing` absent, the sweep evaluates `n_points`
equally spaced neutral-axis depths between and including the limit
depths. -/
theorem C7_spacing_modes :
    (∀ (mesh : Mesh) (L C : List ControlPoint) (np np' m : Nat)
      (mcomp : Option ℚ) (epsCu epsY dBar k0d : ℚ) (scfg : SolverConfig),
      miCore mesh L C np (some m) mcomp epsCu epsY dBar k0d scfg =
        miCore mesh L C np' (some m) mcomp epsCu epsY dBar k0d scfg)
    ∧ (∀ (mesh : Mesh) (l1 l2 : ControlPoint) (C : List ControlPoint) (np m : Nat)
        (epsCu epsY dBar k0d : ℚ) (scfg : SolverConfig)
        (res : List EquilibriumState) (s1 s2 : EquilibriumState),
        miCore mesh [l1, l2] C np (some m) none epsCu epsY dBar k0d scfg = .ok res →
        cpState mesh epsCu epsY dBar scfg l1 = .ok s1 →
        cpState mesh epsCu epsY dBar scfg l2 = .ok s2 →
        scfg.dnMin < mesh.depth + scfg.margin →
        2 ≤ m →
        res.length = m + C.length ∧ res[0]? = some s1 ∧
          res.getLast? = some s2 ∧
          ∀ j, j < m - 2 → ∃ st, res[j + 1]? = some st ∧
            |st.n - (s1.n + ((j : ℚ) + 1) * (s2.n - s1.n) / ((m : ℚ) - 1))| ≤
              scfg.ftol)
    ∧ ∀ (mesh : Mesh) (l1 l2 : ControlPoint) (C : List ControlPoint) (np : Nat)
        (epsCu epsY dBar k0d d1 d2 : ℚ) (scfg : SolverConfig)
        (res : List EquilibriumState),
        miCore mesh [l1, l2] C np none none epsCu epsY dBar k0d scfg = .ok res →
        limitDepth mesh epsCu epsY dBar k0d scfg l1 = .ok d1 →
        limitDepth mesh epsCu epsY dBar k0d scfg l2 = .ok d2 →
        2 ≤ np →
        res.length = np + C.length ∧
          (∀ j, j < np - 2 → res[j + 1]? =
            some (ultimatePoint mesh epsCu
              (d1 + ((j : ℚ) + 1) * (d2 - d1) / ((np : ℚ) - 1)))) ∧
          (l1.kind = CPKind.D ∨ l1.kind = CPKind.d_n →
            res[0]? = some (ultimatePoint mesh epsCu d1)) ∧
          (l2.kind = CPKind.D ∨ l2.kind = CPKind.d_n →
            res.getLast? = some (ultimatePoint mesh epsCu d2)) := by
  refine ⟨?_, ?_, ?_⟩
  · intro mesh L C np np' m mcomp epsCu epsY dBar k0d scfg
    rcases L with _ | ⟨a, L⟩
    · rfl
    rcases L with _ | ⟨b, L⟩
    · rfl
    rcases L with _ | ⟨c, L⟩
    · have hmm : ∀ s1 s2, miMid mesh epsCu epsY dBar k0d scfg np (some m) a b s1 s2 =
          miMid mesh epsCu epsY dBar k0d scfg np' (some m) a b s1 s2 :=
        fun _ _ => rfl
      simp only [miCore, hmm]
    · rfl
  · intro mesh l1 l2 C np m epsCu epsY dBar k0d scfg res s1 s2 heq hs1 hs2 hbr hm
    obtain ⟨s1', s2', mid, cstates, hs1', hs2', hmid, hcs, hres⟩ :=
      miCore_ok_elim mesh l1 l2 C np (some m) none epsCu epsY dBar k0d scfg res heq
    rw [hs1] at hs1'
    rw [hs2] at hs2'
    obtain rfl : s1 = s1' := Except.ok.inj hs1'
    obtain rfl : s2 = s2' := Except.ok.inj hs2'
    simp only [miMid] at hmid
    simp only [applyMax] at hres
    have hmlen : mid.length = m - 2 := by
      rw [exMapM_ok_length _ _ _ hmid, interiorSpaced_length]
    have hclen : cstates.length = C.length := exMapM_ok_length _ _ _ hcs
    subst hres
    refine ⟨?_, ?_, ?_, ?_⟩
    · simp only [List.length_cons, List.length_append, List.length_nil,
        hmlen, hclen]
      omega
    · simp
    · have hsh : s1 :: (mid ++ cstates ++ [s2]) = (s1 :: (mid ++ cstates)) ++ [s2] := by
        simp
      rw [hsh, List.getLast?_concat]
    · intro j hj
      have hj' : j < mid.length := by omega
      have hg : (s1 :: (mid ++ cstates ++ [s2]))[j + 1]? = mid[j]? := by
        rw [List.getElem?_cons_succ, List.getElem?_append_left (by simp only [List.length_append]; omega),
          List.getElem?_append_left hj']
      obtain ⟨st, hst, hsolve⟩ := exMapM_ok_get _ _ _ hmid j _
        (interiorSpaced_get s1.n s2.n m j hj)
      exact ⟨st, by rw [hg, hst],
        solveUltimateForN_tol mesh epsCu _ scfg st hbr hsolve⟩
  · intro mesh l1 l2 C np epsCu epsY dBar k0d d1 d2 scfg res heq hd1 hd2 hnp
    obtain ⟨s1, s2, mid, cstates, hs1, hs2, hmid, hcs, hres⟩ :=
      miCore_ok_elim mesh l1 l2 C np none none epsCu epsY dBar k0d scfg res heq
    simp only [miMid] at hmid
    rw [hd1, hd2] at hmid
    obtain rfl : (interiorSpaced d1 d2 np).map (ultimatePoint mesh epsCu) = mid :=
      Except.ok.inj hmid
    simp only [applyMax] at hres
    have hclen : cstates.length = C.length := exMapM_ok_length _ _ _ hcs
    subst hres
    refine ⟨?_, ?_, ?_, ?_⟩
    · simp only [List.length_cons, List.length_append, List.length_nil,
        List.length_map, interiorSpaced_length, hclen]
      omega
    · intro j hj
      have hj' : j < ((interiorSpaced d1 d2 np).map (ultimatePoint mesh epsCu)).length := by
        simp only [List.length_map, interiorSpaced_length]
        omega
      rw [List.getElem?_cons_succ, List.getElem?_append_left (by simp only [List.length_append]; omega),
        List.getElem?_append_left hj', List.getElem?_map, interiorSpaced_get d1 d2 np j hj]
      rfl
    · intro hk
      obtain ⟨k1, v1⟩ := l1
      simp only at hk
      rcases hk with rfl | rfl
      · simp only [cpState, Except.ok.injEq] at hs1
        simp only [limitDepth, Except.ok.injEq] at hd1
        rw [← hs1, hd1]
        simp
      · simp only [cpState, Except.ok.injEq] at hs1
        simp only [limitDepth, Except.ok.injEq] at hd1
        rw [← hs1, hd1]
        simp
    · intro hk
      obtain ⟨k2, v2⟩ := l2
      simp only at hk
      have hsh : s1 :: ((interiorSpaced d1 d2 np).map (ultimatePoint mesh epsCu)
          ++ cstates ++ [s2]) =
          (s1 :: ((interiorSpaced d1 d2 np).map (ultimatePoint mesh epsCu)
            ++ cstates)) ++ [s2] := by
        simp
      rw [hsh, List.getLast?_concat]
      rcases hk with rfl | rfl
      · simp only [cpState, Except.ok.injEq] at hs2
        simp only [limitDepth, Except.ok.injEq] at hd2
        rw [← hs2, hd2]
      · simp only [cpState, Except.ok.injEq] at hs2
        simp only [limitDepth, Except.ok.injEq] at hd2
        rw [← hs2, hd2]

/-- C7 witness: the `n_points` override under `n_spacing`, a concrete
load-spaced sweep, and a concrete depth-spaced sweep. -/
theorem C7_witness :
    (miCore mesh1 [⟨.d_n, 1/2⟩, ⟨.d_n, 2⟩] [] 3 (some 2) none 1 1 1 5 cfg1 =
      miCore mesh1 [⟨.d_n, 1/2⟩, ⟨.d_n, 2⟩] [] 7 (some 2) none 1 1 1 5 cfg1)
    ∧ (c7res2.length = 2 + ([] : List ControlPoint).length ∧
        c7res2[0]? = some (ultimatePoint mesh1 1 (1/2)) ∧
        c7res2.getLast? = some (ultimatePoint mesh1 1 2) ∧
        ∀ j : Nat, j < 2 - 2 → ∃ st, c7res2[j + 1]? = some st ∧
          |st.n - ((ultimatePoint mesh1 1 (1/2)).n + ((j : ℚ) + 1) *
            ((ultimatePoint mesh1 1 2).n - (ultimatePoint mesh1 1 (1/2)).n) /
              (((2 : Nat) : ℚ) - 1))| ≤ cfg1.ftol)
    ∧ (c7res3.length = 3 + ([] : List ControlPoint).length ∧
        (∀ j : Nat, j < 3 - 2 → c7res3[j + 1]? =
          some (ultimatePoint mesh1 1
            ((1/2 : ℚ) + ((j : ℚ) + 1) * (2 - 1/2) / (((3 : Nat) : ℚ) - 1)))) ∧
        ((ControlPoint.mk .d_n (1/2)).kind = CPKind.D ∨
            (ControlPoint.mk .d_n (1/2)).kind = CPKind.d_n →
          c7res3[0]? = some (ultimatePoint mesh1 1 (1/2))) ∧
        ((ControlPoint.mk .d_n 2).kind = CPKind.D ∨
            (ControlPoint.mk .d_n 2).kind = CPKind.d_n →
          c7res3.getLast? = some (ultimatePoint mesh1 1 2))) :=
  ⟨C7_spacing_modes.1 mesh1 [⟨.d_n, 1/2⟩, ⟨.d_n, 2⟩] [] 3 7 2 none 1 1 1 5 cfg1,
   C7_spacing_modes.2.1 mesh1 ⟨.d_n, 1/2⟩ ⟨.d_n, 2⟩ [] 0 2 1 1 1 5 cfg1 c7res2
     (ultimatePoint mesh1 1 (1/2)) (ultimatePoint mesh1 1 2) rfl rfl rfl
     (by norm_num [cfg1, mesh1]) (by norm_num),
   C7_spacing_modes.2.2 mesh1 ⟨.d_n, 1/2⟩ ⟨.d_n, 2⟩ [] 3 1 1 1 5 (1/2) 2 cfg1
     c7res3 rfl rfl rfl (by norm_num)⟩

/-- The clipped point always sits exactly at the compression cap. -/
theorem clipPoint_n (mc : ℚ) (sA : EquilibriumState)
    (ob : Option EquilibriumState) : (clipPoint mc sA ob).n = mc := by
  cases ob <;> rfl

/-- Everything the cutoff returns is at or below the cap. -/
theorem applyMaxComp_le (mc : ℚ) (pts : List EquilibriumState) :
    ∀ p ∈ applyMaxComp mc pts, p.n ≤ mc := by
  intro p hp
  unfold applyMaxComp at hp
  split at hp
  · rename_i hfil
    by_contra hgt
    push_neg at hgt
    have hmem : p ∈ pts.filter (fun st => decide (mc < st.n)) :=
      List.mem_filter.mpr ⟨hp, by simpa using hgt⟩
    rw [hfil] at hmem
    simp at hmem
  · rename_i o os hfil
    rcases List.mem_cons.mp hp with rfl | hkept
    · exact le_of_eq (clipPoint_n mc _ _)
    · have := List.mem_filter.mp hkept
      simpa using this.2

/-- C8: under a `max_comp` cap, every point of the returned envelope has
axial load at most the cap; the points that exceeded the cap are removed,
replaced at the top by a single clipped point at axial load exactly the
cap; and no point at or below the cap is lost. -/
theorem C8_max_comp_cutoff :
    (∀ (mesh : Mesh) (l1 l2 : ControlPoint) (C : List ControlPoint) (np : Nat)
      (nsp : Option Nat) (mc epsCu epsY dBar k0d : ℚ) (scfg : SolverConfig)
      (res : List EquilibriumState),
      miCore mesh [l1, l2] C np nsp (some mc) epsCu epsY dBar k0d scfg = .ok res →
      ∀ p ∈ res, p.n ≤ mc)
    ∧ (∀ (mc : ℚ) (pts : List EquilibriumState),
        (∃ p ∈ pts, mc < p.n) →
        ∃ c, applyMaxComp mc pts =
          c :: pts.filter (fun st => decide (st.n ≤ mc)) ∧ c.n = mc)
    ∧ ∀ (mc : ℚ) (pts : List EquilibriumState) (p : EquilibriumState),
        p ∈ pts → p.n ≤ mc → p ∈ applyMaxComp mc pts := by
  refine ⟨?_, ?_, ?_⟩
  · intro mesh l1 l2 C np nsp mc epsCu epsY dBar k0d scfg res heq p hp
    obtain ⟨s1, s2, mid, cstates, _, _, _, _, hres⟩ :=
      miCore_ok_elim mesh l1 l2 C np nsp (some mc) epsCu epsY dBar k0d scfg res heq
    simp only [applyMax] at hres
    subst hres
    exact applyMaxComp_le mc _ p hp
  · intro mc pts hex
    obtain ⟨q, hq, hgt⟩ := hex
    unfold applyMaxComp
    split
    · rename_i hfil
      have hmem : q ∈ pts.filter (fun st => decide (mc < st.n)) :=
        List.mem_filter.mpr ⟨hq, by simpa using hgt⟩
      rw [hfil] at hmem
      simp at hmem
    · rename_i o os hfil
      exact ⟨_, rfl, clipPoint_n mc _ _⟩
  · intro mc pts p hp hle
    unfold applyMaxComp
    split
    · exact hp
    · exact List.mem_cons_of_mem _ (List.mem_filter.mpr ⟨hp, by simpa using hle⟩)

/-- C8 witness: a concrete capped sweep, a concrete clipping, and a
concrete kept point. -/
theorem C8_witness :
    (∀ p ∈ [(⟨.plane 2 (1/2) 1 0, 0, 0, 0⟩ : EquilibriumState),
        ⟨.plane (1/2) 2 1 0, -1, 0, 0⟩], p.n ≤ (0 : ℚ))
    ∧ (∃ c, applyMaxComp 1 pts0 =
        c :: pts0.filter (fun st => decide (st.n ≤ 1)) ∧ c.n = 1)
    ∧ (⟨.uniform 0, -1, 0, 0⟩ : EquilibriumState) ∈ applyMaxComp 1 pts0 :=
  ⟨C8_max_comp_cutoff.1 mesh1 ⟨.d_n, 1/2⟩ ⟨.d_n, 2⟩ [] 2 none 0 1 1 1 5 cfg1
      [⟨.plane 2 (1/2) 1 0, 0, 0, 0⟩, ⟨.plane (1/2) 2 1 0, -1, 0, 0⟩]
      (by norm_num [miCore, miMid, limitDepth, cpState, exMapM, applyMax,
        applyMaxComp, clipPoint, clipInterp, ultimatePoint, integrate,
        integrateElems, integrateReinf, elemContrib, addT, strainAt,
        StressStrainLaw.stressAt, mesh1, matE1, cfg1, interiorSpaced,
        kappa0First, List.filter] <;> simp),
   C8_max_comp_cutoff.2.1 1 pts0
      ⟨⟨.uniform 0, 2, 0, 0⟩, List.mem_cons_self _ _, by norm_num⟩,
   C8_max_comp_cutoff.2.2 1 pts0 ⟨.uniform 0, -1, 0, 0⟩
      (by simp [pts0]) (by norm_num)⟩

/-- C5: a sweep whose limits run from the zero-curvature compression
point to the near-tension depth 1e-6, with the default control points,
starts at the maximum-compression zero-curvature state, ends at the
(d_n, 1e-6) pure-tension limit state, and contains both the fy = 1.0
balanced state and the N = 0 pure-bending state. -/
theorem C5_sweep_endpoints_and_defaults :
    ∀ (mesh : Mesh) (np : Nat) (epsCu epsY dBar k0d v : ℚ) (scfg : SolverConfig)
      (res : List EquilibriumState),
      miCore mesh [⟨.kappa0, v⟩, ⟨.d_n, 1/1000000⟩] defaultControlPoints np none
        none epsCu epsY dBar k0d scfg = .ok res →
      res.head? = some (kappa0State mesh epsCu)
      ∧ res.getLast? = some (ultimatePoint mesh epsCu (1/1000000))
      ∧ ultimatePoint mesh epsCu (fyDepth epsCu epsY dBar 1) ∈ res
      ∧ ∃ stN, solveUltimateForN mesh epsCu 0 scfg = .ok stN ∧ stN ∈ res := by
  intro mesh np epsCu epsY dBar k0d v scfg res heq
  obtain ⟨s1, s2, mid, cstates, hs1, hs2, hmid, hcs, hres⟩ :=
    miCore_ok_elim mesh _ _ _ np none none epsCu epsY dBar k0d scfg res heq
  simp only [cpState] at hs1 hs2
  obtain rfl : kappa0State mesh epsCu = s1 := Except.ok.inj hs1
  obtain rfl : ultimatePoint mesh epsCu (1/1000000) = s2 := Except.ok.inj hs2
  simp only [defaultControlPoints, exMapM, cpState] at hcs
  rcases hN : solveUltimateForN mesh epsCu 0 scfg with e | stN
  · rw [hN] at hcs
    simp at hcs
  · rw [hN] at hcs
    simp only [Except.ok.injEq] at hcs
    subst hcs
    simp only [applyMax] at hres
    subst hres
    refine ⟨rfl, ?_, ?_, stN, rfl, ?_⟩
    · have hsh : kappa0State mesh epsCu ::
          (mid ++ [kappa0State mesh epsCu,
            ultimatePoint mesh epsCu (fyDepth epsCu epsY dBar 1), stN] ++
            [ultimatePoint mesh epsCu (1/1000000)]) =
          (kappa0State mesh epsCu ::
            (mid ++ [kappa0State mesh epsCu,
              ultimatePoint mesh epsCu (fyDepth epsCu epsY dBar 1), stN])) ++
            [ultimatePoint mesh epsCu (1/1000000)] := by
        simp
      rw [hsh, List.getLast?_concat]
    · simp
    · simp

/-- C5 witness: the concrete default sweep on the one-element mesh. -/
theorem C5_witness :
    c5res.head? = some (kappa0State mesh1 1)
    ∧ c5res.getLast? = some (ultimatePoint mesh1 1 (1/1000000))
    ∧ ultimatePoint mesh1 1 (fyDepth 1 1 1 1) ∈ c5res
    ∧ ∃ stN, solveUltimateForN mesh1 1 0 cfg1 = .ok stN ∧ stN ∈ c5res :=
  C5_sweep_endpoints_and_defaults mesh1 2 1 1 1 5 0 cfg1 c5res
    (by norm_num [miCore, miMid, limitDepth, cpState, exMapM, applyMax,
      defaultControlPoints, solveUltimateForN, bisect, ultimatePoint,
      kappa0State, fyDepth, integrate, integrateElems, integrateReinf,
      elemContrib, addT, strainAt, StressStrainLaw.stressAt, mesh1, matE1,
      cfg1, interiorSpaced, kappa0First, c5res, abs_le] <;> simp)
